import Mathlib

set_option maxRecDepth 100000

/-!
Verification development for the Catan repository (Catan.py plus
engine/game_engine.py).  The definitions below are a shallow embedding of
the board generation, graph construction and game-state logic of the
source; the theorems settle the specification claims against them.

Coordinate system.  The source places everything on a pixel plane with
BOARD_ORIGIN = (600, 450) and HEX_RADIUS = 70, and computes hex corners at
angles 60*i - 30 degrees.  Every tile center and corner produced by
generate_board / compute_graph therefore has the exact form

    x = 600 + a * (35 * sqrt 3 / 2),   y = 450 + b * (35 / 2)

with a b integers (tile centers: x step 70*sqrt 3, offsets in halves; y
step 105; corner offsets: (+-35*sqrt 3, -+35) and (0, +-70)).  We embed a
point as the integer pair (a, b).  The squared Euclidean distance between
two embedded points is (1225/4) * (3*da^2 + db^2), so the float
comparisons of the source translate exactly:

    dist < 1                  iff  1225 * (3*da^2 + db^2) < 4
    dist > 1                  iff  1225 * (3*da^2 + db^2) > 4
    dist < HEX_RADIUS * 0.6   iff  1225 * (3*da^2 + db^2) < 7056

(the lattice spacing is at least 17.5 pixels, far above the thresholds, so
float rounding in the source can never flip any of these comparisons).
-/

namespace CatanSrc

/-- Resource kinds, from the Resource enum of Catan.py. -/
inductive Resource
  | WOOD | BRICK | SHEEP | WHEAT | ORE | DESERT
deriving DecidableEq, Repr

/-- A point of the board plane in exact lattice coordinates (see the file
header): the pair (a, b) denotes pixel position
(600 + a * 35 * sqrt 3 / 2, 450 + b * 35 / 2). -/
abbrev Pt : Type := ℤ × ℤ

/-- Scaled squared distance: 4 times the squared pixel distance between two
embedded points equals 1225 * (3*da^2 + db^2). -/
def distCmp (p q : Pt) : ℤ :=
  1225 * (3 * (p.1 - q.1) ^ 2 + (p.2 - q.2) ^ 2)

/-- The source comparison "math.hypot(...) < 1" in exact arithmetic. -/
def distLtOne (p q : Pt) : Bool := distCmp p q < 4

/-- The source comparison "math.hypot(...) > 1" in exact arithmetic. -/
def distGtOne (p q : Pt) : Bool := 4 < distCmp p q

/-- The source comparison "math.hypot(...) < HEX_RADIUS * 0.6" (radius 42
pixels, used by is_valid_road) in exact arithmetic: 42^2 * 4 = 7056. -/
def distLtRoadSnap (p q : Pt) : Bool := distCmp p q < 7056

/-- Corner offsets of a hex tile, in lattice coordinates, in the order the
source generates them: angle 60*i - 30 degrees for i = 0..5, at pixel
radius 70.  (cos, sin) at those angles is (s3/2, -1/2), (s3/2, 1/2),
(0, 1), (-s3/2, 1/2), (-s3/2, -1/2), (0, -1) with s3 = sqrt 3. -/
def cornerOffsets : List Pt := [(2, -2), (2, 2), (0, 4), (-2, 2), (-2, -2), (0, -4)]

/-- The six corners of the hex tile centered at c, in source order. -/
def hexCorners (c : Pt) : List Pt :=
  cornerOffsets.map (fun o => (c.1 + o.1, c.2 + o.2))

/-- Row layout of generate_board: rows = [3, 4, 5, 4, 3]. -/
def rowCounts : List ℕ := [3, 4, 5, 4, 3]

/-- Tile center positions exactly as generate_board lays them out:
row r (r = 0..4) sits at y = 450 + (r-2)*105, and tile i of a row of
count tiles sits at x = 600 + (i - (count-1)/2) * 70 * sqrt 3.  In
lattice coordinates that is (4*i - 2*(count-1), 6*(r-2)). -/
def tilePositions : List Pt :=
  (List.range rowCounts.length).flatMap (fun r =>
    (List.range (rowCounts.getD r 0)).map (fun i =>
      (4 * (i : ℤ) - 2 * ((rowCounts.getD r 0 : ℤ) - 1), 6 * ((r : ℤ) - 2))))

/-- A board tile: resource kind, optional number token (none on the
desert), and center position, as in the Tile class of Catan.py. -/
structure Tile where
  resource : Resource
  number : Option ℕ
  position : Pt
deriving DecidableEq, Repr

/-- The fixed resource pool of generate_board before shuffling:
4 wood + 3 brick + 4 sheep + 4 wheat + 3 ore + 1 desert. -/
def resPool : List Resource :=
  [.WOOD, .WOOD, .WOOD, .WOOD, .BRICK, .BRICK, .BRICK,
   .SHEEP, .SHEEP, .SHEEP, .SHEEP, .WHEAT, .WHEAT, .WHEAT, .WHEAT,
   .ORE, .ORE, .ORE, .DESERT]

/-- The fixed number-token pool of generate_board before shuffling. -/
def numPool : List ℕ := [2, 3, 3, 4, 4, 5, 5, 6, 6, 8, 8, 9, 9, 10, 10, 11, 11, 12]

/-- Python list.pop(): removes and returns the last element, or fails on an
empty list. -/
def popLast (l : List ℕ) : Option (ℕ × List ℕ) :=
  match l.getLast? with
  | none => none
  | some n => some (n, l.dropLast)

/-- Tile construction loop of generate_board: walk the fixed position list,
consume the shuffled resource pool in index order (res_pool[idx]), and pop
a number token from the end of the shuffled number pool for every
non-desert tile.  Returns none when a pool is exhausted (an index error or
pop from an empty list in Python). -/
def genTiles : List Pt → List Resource → List ℕ → Option (List Tile)
  | [], _, _ => some []
  | _ :: _, [], _ => none
  | p :: ps, r :: rs, ns =>
    if r = Resource.DESERT then
      (genTiles ps rs ns).map (fun ts => ⟨r, none, p⟩ :: ts)
    else
      match popLast ns with
      | none => none
      | some (n, ns') => (genTiles ps rs ns').map (fun ts => ⟨r, some n, p⟩ :: ts)

/-- generate_board for given shuffled pools (shuffling is modelled by
quantifying over permutations of the fixed pools in the theorems). -/
def generate_board (res_pool : List Resource) (num_pool : List ℕ) : Option (List Tile) :=
  genTiles tilePositions res_pool num_pool

/-- Accumulator of compute_graph: node positions in creation order, edge
midpoints in creation order, and the directed adjacency pairs that the
source adds to its node_adjacency dict of sets (each entry is recorded
here once per addition; the validity checks only ever test membership, so
multiplicity is irrelevant). -/
structure BuildState where
  nodes : List Pt
  edges : List Pt
  adj : List (ℕ × ℕ)
deriving Repr, DecidableEq

/-- get_or_create_node of compute_graph: scan the existing nodes in
creation order (the insertion order of the coord_to_index dict) for one
within distance < 1 of the corner, else append a new node. -/
def getOrCreateNode (nodes : List Pt) (c : Pt) : ℕ × List Pt :=
  match nodes.findIdx? (fun p => distLtOne c p) with
  | some i => (i, nodes)
  | none => (nodes.length, nodes ++ [c])

/-- Corner loop of compute_graph for one tile: resolve the six corner
indices in order, growing the node list. -/
def resolveCorners (nodes : List Pt) (c : Pt) : List ℕ × List Pt :=
  (hexCorners c).foldl
    (fun acc corner =>
      let r := getOrCreateNode acc.2 corner
      (acc.1 ++ [r.1], r.2))
    ([], nodes)

/-- Edge loop of compute_graph for one tile: for each consecutive corner
pair (wrapping), record bidirectional adjacency and append the midpoint of
the two node positions to the edge list unless an existing edge midpoint is
within distance <= 1 (the source keeps the midpoint only when every
existing midpoint is at distance > 1).  Node coordinates are even in both
components, so the pixel midpoint is again a lattice point and the integer
division below is exact. -/
def addTileEdges (st : BuildState) (idxs : List ℕ) : BuildState :=
  (List.range 6).foldl
    (fun s i =>
      let a := idxs.getD i 0
      let b := idxs.getD ((i + 1) % 6) 0
      let pa := s.nodes.getD a (0, 0)
      let pb := s.nodes.getD b (0, 0)
      let m : Pt := ((pa.1 + pb.1) / 2, (pa.2 + pb.2) / 2)
      { s with
        adj := s.adj ++ [(a, b), (b, a)],
        edges := if s.edges.all (fun e => distGtOne m e) then s.edges ++ [m] else s.edges })
    st

/-- Per-tile body of compute_graph. -/
def processTile (st : BuildState) (c : Pt) : BuildState :=
  let r := resolveCorners st.nodes c
  addTileEdges { st with nodes := r.2 } r.1

/-- Sort order used at the end of compute_graph (and again when Game
builds pos_nodes / pos_edges): key (round(y), round(x)), lexicographic.
Every node y is an exact multiple of 35 pixels from 450 and consecutive
distinct x values are about 30 pixels apart, so rounding never reorders or
merges keys and the order is exactly lexicographic (b, a) on lattice
coordinates. -/
def posKeyLe (p q : Pt) : Bool :=
  if p.2 < q.2 then true
  else if p.2 = q.2 then decide (p.1 ≤ q.1)
  else false

/-- Stable insertion of x after every element le-below-or-equal to it. -/
def insertLe (le : α → α → Bool) (x : α) : List α → List α
  | [] => [x]
  | y :: ys => if le y x then y :: insertLe le x ys else x :: y :: ys

/-- Stable sort (Python sorted is stable; with the keys above there are no
duplicate keys, so stability is not even load bearing). -/
def sortLe (le : α → α → Bool) (l : List α) : List α :=
  l.foldl (fun acc x => insertLe le x acc) []

/-- compute_graph of the Board class: process every tile, then sort the
node list by (round(y), round(x)) and remap the adjacency pairs through
the old-index to new-index permutation.  Edge positions are kept in
creation order (the remap loop of the source copies them unchanged). -/
def compute_graph (centers : List Pt) : BuildState :=
  let st := centers.foldl processTile ⟨[], [], []⟩
  let sorted := sortLe (fun x y => posKeyLe x.2 y.2) st.nodes.enum
  let oldToNew := fun o => sorted.findIdx (fun pr => pr.1 = o)
  { nodes := sorted.map (fun pr => pr.2),
    edges := st.edges,
    adj := st.adj.map (fun ab => (oldToNew ab.1, oldToNew ab.2)) }

/-- The graph of the fixed layout.  compute_graph only reads tile
positions, and generate_board always produces the same positions, so this
is the graph of every generated board. -/
def catanGraph : BuildState := compute_graph tilePositions

/-- Literal value of the node list of the computed graph.  The theorem
catanGraph_eval below proves that the literal graph equals
compute_graph tilePositions; downstream definitions are phrased over the
literals so that evaluating a concrete game state stays cheap. -/
def nodesLit : List Pt := [(-4, -16), (0, -16), (4, -16), (-6, -14), (-2, -14), (2, -14), (6, -14), (-6, -10), (-2, -10), (2, -10), (6, -10), (-8, -8), (-4, -8), (0, -8), (4, -8), (8, -8), (-8, -4), (-4, -4), (0, -4), (4, -4), (8, -4), (-10, -2), (-6, -2), (-2, -2), (2, -2), (6, -2), (10, -2), (-10, 2), (-6, 2), (-2, 2), (2, 2), (6, 2), (10, 2), (-8, 4), (-4, 4), (0, 4), (4, 4), (8, 4), (-8, 8), (-4, 8), (0, 8), (4, 8), (8, 8), (-6, 10), (-2, 10), (2, 10), (6, 10), (-6, 14), (-2, 14), (2, 14), (6, 14), (-4, 16), (0, 16), (4, 16)]

/-- Literal value of the edge-midpoint list of the computed graph, in
creation order. -/
def edgesPreLit : List Pt := [(-2, -12), (-3, -9), (-5, -9), (-6, -12), (-5, -15), (-3, -15), (2, -12), (1, -9), (-1, -9), (-1, -15), (1, -15), (6, -12), (5, -9), (3, -9), (3, -15), (5, -15), (-4, -6), (-5, -3), (-7, -3), (-8, -6), (-7, -9), (0, -6), (-1, -3), (-3, -3), (4, -6), (3, -3), (1, -3), (8, -6), (7, -3), (5, -3), (7, -9), (-6, 0), (-7, 3), (-9, 3), (-10, 0), (-9, -3), (-2, 0), (-3, 3), (-5, 3), (2, 0), (1, 3), (-1, 3), (6, 0), (5, 3), (3, 3), (10, 0), (9, 3), (7, 3), (9, -3), (-4, 6), (-5, 9), (-7, 9), (-8, 6), (0, 6), (-1, 9), (-3, 9), (4, 6), (3, 9), (1, 9), (8, 6), (7, 9), (5, 9), (-2, 12), (-3, 15), (-5, 15), (-6, 12), (2, 12), (1, 15), (-1, 15), (6, 12), (5, 15), (3, 15)]

/-- Literal value of the adjacency pair list of the computed graph. -/
def adjLit : List (ℕ × ℕ) := [(4, 8), (8, 4), (8, 12), (12, 8), (12, 7), (7, 12), (7, 3), (3, 7), (3, 0), (0, 3), (0, 4), (4, 0), (5, 9), (9, 5), (9, 13), (13, 9), (13, 8), (8, 13), (8, 4), (4, 8), (4, 1), (1, 4), (1, 5), (5, 1), (6, 10), (10, 6), (10, 14), (14, 10), (14, 9), (9, 14), (9, 5), (5, 9), (5, 2), (2, 5), (2, 6), (6, 2), (12, 17), (17, 12), (17, 22), (22, 17), (22, 16), (16, 22), (16, 11), (11, 16), (11, 7), (7, 11), (7, 12), (12, 7), (13, 18), (18, 13), (18, 23), (23, 18), (23, 17), (17, 23), (17, 12), (12, 17), (12, 8), (8, 12), (8, 13), (13, 8), (14, 19), (19, 14), (19, 24), (24, 19), (24, 18), (18, 24), (18, 13), (13, 18), (13, 9), (9, 13), (9, 14), (14, 9), (15, 20), (20, 15), (20, 25), (25, 20), (25, 19), (19, 25), (19, 14), (14, 19), (14, 10), (10, 14), (10, 15), (15, 10), (22, 28), (28, 22), (28, 33), (33, 28), (33, 27), (27, 33), (27, 21), (21, 27), (21, 16), (16, 21), (16, 22), (22, 16), (23, 29), (29, 23), (29, 34), (34, 29), (34, 28), (28, 34), (28, 22), (22, 28), (22, 17), (17, 22), (17, 23), (23, 17), (24, 30), (30, 24), (30, 35), (35, 30), (35, 29), (29, 35), (29, 23), (23, 29), (23, 18), (18, 23), (18, 24), (24, 18), (25, 31), (31, 25), (31, 36), (36, 31), (36, 30), (30, 36), (30, 24), (24, 30), (24, 19), (19, 24), (19, 25), (25, 19), (26, 32), (32, 26), (32, 37), (37, 32), (37, 31), (31, 37), (31, 25), (25, 31), (25, 20), (20, 25), (20, 26), (26, 20), (34, 39), (39, 34), (39, 43), (43, 39), (43, 38), (38, 43), (38, 33), (33, 38), (33, 28), (28, 33), (28, 34), (34, 28), (35, 40), (40, 35), (40, 44), (44, 40), (44, 39), (39, 44), (39, 34), (34, 39), (34, 29), (29, 34), (29, 35), (35, 29), (36, 41), (41, 36), (41, 45), (45, 41), (45, 40), (40, 45), (40, 35), (35, 40), (35, 30), (30, 35), (30, 36), (36, 30), (37, 42), (42, 37), (42, 46), (46, 42), (46, 41), (41, 46), (41, 36), (36, 41), (36, 31), (31, 36), (31, 37), (37, 31), (44, 48), (48, 44), (48, 51), (51, 48), (51, 47), (47, 51), (47, 43), (43, 47), (43, 39), (39, 43), (39, 44), (44, 39), (45, 49), (49, 45), (49, 52), (52, 49), (52, 48), (48, 52), (48, 44), (44, 48), (44, 40), (40, 44), (40, 45), (45, 40), (46, 50), (50, 46), (50, 53), (53, 50), (53, 49), (49, 53), (49, 45), (45, 49), (45, 41), (41, 45), (41, 46), (46, 41)]

/-- The computed graph as a literal (see catanGraph_eval). -/
def catanGraphL : BuildState := ⟨nodesLit, edgesPreLit, adjLit⟩

/-- pos_nodes of the Game class: board.nodes sorted by exact (y, x).  The
node list of compute_graph is already sorted by the equivalent rounded
key, so the re-sort is the identity; the theorem posNodes_eval proves
this definition equal to sortLe posKeyLe catanGraph.nodes. -/
def posNodes : List Pt := catanGraphL.nodes

/-- pos_edges of the Game class: board.edges sorted by exact (y, x), as a
literal; the theorem posEdges_eval proves it equal to
sortLe posKeyLe catanGraph.edges. -/
def posEdges : List Pt := [(-5, -15), (-3, -15), (-1, -15), (1, -15), (3, -15), (5, -15), (-6, -12), (-2, -12), (2, -12), (6, -12), (-7, -9), (-5, -9), (-3, -9), (-1, -9), (1, -9), (3, -9), (5, -9), (7, -9), (-8, -6), (-4, -6), (0, -6), (4, -6), (8, -6), (-9, -3), (-7, -3), (-5, -3), (-3, -3), (-1, -3), (1, -3), (3, -3), (5, -3), (7, -3), (9, -3), (-10, 0), (-6, 0), (-2, 0), (2, 0), (6, 0), (10, 0), (-9, 3), (-7, 3), (-5, 3), (-3, 3), (-1, 3), (1, 3), (3, 3), (5, 3), (7, 3), (9, 3), (-8, 6), (-4, 6), (0, 6), (4, 6), (8, 6), (-7, 9), (-5, 9), (-3, 9), (-1, 9), (1, 9), (3, 9), (5, 9), (7, 9), (-6, 12), (-2, 12), (2, 12), (6, 12), (-5, 15), (-3, 15), (-1, 15), (1, 15), (3, 15), (5, 15)]

/-- Adjacency pair list of the computed graph (theorem nodeAdj_eval). -/
def nodeAdj : List (ℕ × ℕ) := catanGraphL.adj

/-- Neighbor query: node_adjacency.get(n, empty set), as the set of second
components paired with n. -/
def neighbors (n : ℕ) : List ℕ :=
  (nodeAdj.filter (fun pr => pr.1 = n)).map (fun pr => pr.2)

/-! Game-state model.

The Game class holds two node-ownership dicts that the source treats as
one store but that are in fact distinct objects: Game.node_ownership
(written only by the city upgrade) and GameEngine.node_ownership (written
by every settlement placement).  Both are modelled, as nodeOwn and
engineNodeOwn.  Fields of Game and Player that no claim touches (pygame
surfaces, fonts, colors, names, UI rectangles, dev-card holdings, popup
timers, the robber index) are omitted; place_piece is modelled after click
snapping, taking the resolved nearest node index and nearest edge index as
parameters. -/

/-- Ownership kind stored in the node-ownership dicts. -/
inductive StructKind
  | settlement | city
deriving DecidableEq, Repr

/-- Per-index placement state of a player node-states array. -/
inductive NodeSt
  | empty | settlement | city
deriving DecidableEq, Repr

/-- Per-index placement state of a player edge-states array. -/
inductive EdgeSt
  | empty | road
deriving DecidableEq, Repr

/-- Build modes that place_piece dispatches on in the main phase. -/
inductive BMode
  | road | settle | upgrade | buy
deriving DecidableEq, Repr

/-- Game phase: the source strings "setup" and "game". -/
inductive Phase
  | setup | game
deriving DecidableEq, Repr

/-- Player state (the fields the claims touch).  Resource counts are
integers because Python integers may go negative under unchecked
decrements. -/
structure PlayerSt where
  nodeStates : List NodeSt
  edgeStates : List EdgeSt
  resources : Resource → ℤ
  victoryPoints : ℕ
  longestRoad : ℕ

instance : Inhabited PlayerSt := ⟨⟨[], [], fun _ => 0, 0, 0⟩⟩

/-- update_stats of the Player class: victory points and longest road
recomputed from the state arrays. -/
def updateStats (p : PlayerSt) : PlayerSt :=
  { p with
    victoryPoints := p.nodeStates.count .settlement + 2 * p.nodeStates.count .city,
    longestRoad := p.edgeStates.count .road }

/-- Game state: the fields of Game (and the node-ownership dict of its
GameEngine) that the claims are about.  The dicts are modelled as partial
maps.  gameOver models the sys.exit call of check_win; no code path of the
effective program ever sets it. -/
structure GState where
  tiles : List Tile
  nodeOwn : ℕ → Option (ℕ × StructKind)
  edgeOwn : ℕ → Option ℕ
  engineNodeOwn : ℕ → Option (ℕ × StructKind)
  players : List PlayerSt
  selectedPlayer : ℕ
  currentTurn : ℕ
  numPlayers : ℕ
  phase : Phase
  setupStep : ℕ
  buildMode : Option BMode
  rollActive : Bool
  diceResult : Option ℕ
  gameOver : Bool

/-- Point update of a partial map, modelling a dict assignment. -/
def updMap (m : ℕ → Option α) (k : ℕ) (v : Option α) : ℕ → Option α :=
  fun i => if i = k then v else m i

/-- List indexing with the default the source relies on being in range. -/
def getPlayer (s : GState) (i : ℕ) : PlayerSt := s.players.getD i default

/-- setup_player_index of the Game class, verbatim: placements_per_player
is 2, total_steps is num_players * 2; forward round then reverse round. -/
def setup_player_index (numPlayers setupStep : ℕ) : ℕ :=
  let placements_per_player := 2
  let total_steps := numPlayers * placements_per_player
  if setupStep < total_steps then setupStep / placements_per_player
  else numPlayers - 1 - ((setupStep - total_steps) / placements_per_player)

/-- is_valid_settlement of the Game class: reject when Game.node_ownership
has the node, or some neighbor (per board.node_adjacency) is owned in
Game.node_ownership with kind settlement or city. -/
def is_valid_settlement (s : GState) (idx : ℕ) : Bool :=
  if (s.nodeOwn idx).isSome then false
  else (neighbors idx).all (fun nb =>
    match s.nodeOwn nb with
    | some (_, k) => !(k = .settlement || k = .city)
    | none => true)

/-- is_valid_road of the Game class: the edge must be unowned in
Game.edge_ownership, and either some node within 42 pixels of the edge
midpoint is owned by the player in Game.node_ownership, or some other
edge within 42 pixels is owned by the player in Game.edge_ownership. -/
def is_valid_road (s : GState) (pid : ℕ) (eIdx : ℕ) : Bool :=
  if (s.edgeOwn eIdx).isSome then false
  else
    let epos := posEdges.getD eIdx (0, 0)
    let adjacentNodes := (posNodes.enum.filter (fun pr => distLtRoadSnap epos pr.2)).map
      (fun pr => pr.1)
    if adjacentNodes.any (fun ni =>
        match s.nodeOwn ni with
        | some (o, _) => o = pid
        | none => false) then true
    else posEdges.enum.any (fun pr =>
      pr.1 ≠ eIdx && distLtRoadSnap epos pr.2 && s.edgeOwn pr.1 = some pid)

/-- BUILD_COSTS of the source as a total cost function (resources absent
from a cost dict cost 0, which makes the loops below equivalent to the
dict iteration of the source). -/
def buildCost : BMode → Resource → ℤ
  | .road, .WOOD => 1 | .road, .BRICK => 1
  | .settle, .WOOD => 1 | .settle, .BRICK => 1
  | .settle, .SHEEP => 1 | .settle, .WHEAT => 1
  | .upgrade, .ORE => 3 | .upgrade, .WHEAT => 2
  | .buy, .ORE => 1 | .buy, .SHEEP => 1 | .buy, .WHEAT => 1
  | _, _ => 0

/-- Resource kinds, listed for cost iteration. -/
def allResources : List Resource := [.WOOD, .BRICK, .SHEEP, .WHEAT, .ORE, .DESERT]

/-- can_afford of the Game class. -/
def can_afford (p : PlayerSt) (b : BMode) : Bool :=
  allResources.all (fun r => buildCost b r ≤ p.resources r)

/-- pay_cost of the Game class: unchecked decrements. -/
def pay_cost (p : PlayerSt) (b : BMode) : PlayerSt :=
  { p with resources := fun r => p.resources r - buildCost b r }

/-- get_tiles_adjacent_to_node of the Game class: tiles one of whose six
corners is within distance < 1 of the node position. -/
def get_tiles_adjacent_to_node (tiles : List Tile) (idx : ℕ) : List Tile :=
  let npos := posNodes.getD idx (0, 0)
  tiles.filter (fun t => (hexCorners t.position).any (fun c => distLtOne c npos))

/-- get_adjacent_nodes of the Game class: indices of pos_nodes within
distance < 1 of some corner of the tile. -/
def get_adjacent_nodes (t : Tile) : List ℕ :=
  (posNodes.enum.filter (fun pr =>
    (hexCorners t.position).any (fun c => distLtOne c pr.2))).map (fun pr => pr.1)

/-- Pointwise increment of the player resource table, modelling
players[player_id].resources[res] += amount. -/
def addRes (pl : ℕ → Resource → ℤ) (pid : ℕ) (res : Resource) (k : ℤ) :
    ℕ → Resource → ℤ :=
  fun p r => if p = pid ∧ r = res then pl p r + k else pl p r

/-- Inner loop of the resource distribution of Game.roll_dice and
Game.distribute_resources for one matching tile: every node index
adjacent to the tile that Game.node_ownership owns grants the owner 1 of
the tile resource, or 2 for a city. -/
def distTile (own : ℕ → Option (ℕ × StructKind)) (t : Tile)
    (pl : ℕ → Resource → ℤ) : ℕ → Resource → ℤ :=
  (get_adjacent_nodes t).foldl
    (fun acc2 n =>
      match own n with
      | some (pid, k) => addRes acc2 pid t.resource (if k = .city then 2 else 1)
      | none => acc2)
    pl

/-- Resource distribution loop shared by Game.distribute_resources and
Game.roll_dice: every tile whose number equals the roll distributes. -/
def distributeRes (tiles : List Tile) (own : ℕ → Option (ℕ × StructKind))
    (pl : ℕ → Resource → ℤ) (r : ℕ) : ℕ → Resource → ℤ :=
  tiles.foldl (fun acc t => if t.number = some r then distTile own t acc else acc) pl

/-- Starting-resource grant of the second-settlement branch of
place_piece: one of each non-desert resource per adjacent tile. -/
def grantStart (p : PlayerSt) (ts : List Tile) : PlayerSt :=
  { p with
    resources := ts.foldl
      (fun res t =>
        if t.resource = Resource.DESERT then res
        else fun r => if r = t.resource then res r + 1 else res r)
      p.resources }

/-- Occupancy and validity guards of the setup settlement branch of
place_piece (the two early returns). -/
def settleChecksPass (s : GState) (idx : ℕ) : Bool :=
  !(s.nodeOwn idx).isSome && is_valid_settlement s idx

/-- Grant condition of the second-settlement branch of place_piece,
evaluated against the pre-placement state: the player whose turn it is,
after marking the node, has settlement count exactly 2, and setup_step is
at least num_players * 2. -/
def bonusFires (s : GState) (idx : ℕ) : Bool :=
  let pi := setup_player_index s.numPlayers s.setupStep
  let pl := getPlayer s pi
  s.numPlayers * 2 ≤ s.setupStep &&
    (pl.nodeStates.set idx .settlement).count .settlement = 2

/-- Shared tail of the setup branches of place_piece: increment setup_step
and flip the phase once it reaches num_players * 2 * 2. -/
def advanceSetup (s : GState) : GState :=
  let s := { s with setupStep := s.setupStep + 1 }
  if s.numPlayers * 2 * 2 ≤ s.setupStep then { s with phase := .game } else s

/-- Setup settlement branch of place_piece (setup phase, even setup_step):
the acting player is setup_player_index (selected_player is set before
any check, so even rejected attempts mutate it); on success the node is
marked in the player state array and in engine.node_ownership — not in
Game.node_ownership — the second-settlement grant fires when its
condition holds, and setup advances. -/
def setupSettle (s0 : GState) (idx : ℕ) : GState :=
  let pi := setup_player_index s0.numPlayers s0.setupStep
  let s := { s0 with selectedPlayer := pi }
  if ¬ settleChecksPass s0 idx then s
  else
    let player := getPlayer s0 pi
    let player := { player with nodeStates := player.nodeStates.set idx .settlement }
    let player :=
      if bonusFires s0 idx then grantStart player (get_tiles_adjacent_to_node s0.tiles idx)
      else player
    advanceSetup
      { s with
        players := s.players.set pi player,
        engineNodeOwn := updMap s.engineNodeOwn idx (some (pi, .settlement)) }

/-- Setup road branch of place_piece (setup phase, odd setup_step). -/
def setupRoad (s0 : GState) (eIdx : ℕ) : GState :=
  let pi := setup_player_index s0.numPlayers s0.setupStep
  let s := { s0 with selectedPlayer := pi }
  if ¬ is_valid_road s0 pi eIdx then s
  else
    let player := getPlayer s0 pi
    let player := { player with edgeStates := player.edgeStates.set eIdx .road }
    advanceSetup
      { s with
        players := s.players.set pi player,
        edgeOwn := updMap s.edgeOwn eIdx (some pi) }

/-- Main-phase road branch of place_piece: only the emptiness of the
acting player edge-state cell is checked; no affordability check and no
payment. -/
def mainRoad (s : GState) (eIdx : ℕ) : GState :=
  let p := getPlayer s s.selectedPlayer
  if p.edgeStates.getD eIdx .empty = .empty then
    let p := updateStats { p with edgeStates := p.edgeStates.set eIdx .road }
    { s with
      players := s.players.set s.selectedPlayer p,
      edgeOwn := updMap s.edgeOwn eIdx (some s.selectedPlayer) }
  else s

/-- Main-phase settlement branch of place_piece: occupancy check and
is_valid_settlement against Game.node_ownership, affordability check,
payment, then the settlement is recorded in the player state array and in
engine.node_ownership. -/
def mainSettle (s : GState) (idx : ℕ) : GState :=
  let p := getPlayer s s.selectedPlayer
  if (s.nodeOwn idx).isSome then s
  else if ¬ is_valid_settlement s idx then s
  else if ¬ can_afford p .settle then s
  else
    let p := pay_cost p .settle
    let p := updateStats { p with nodeStates := p.nodeStates.set idx .settlement }
    { s with
      players := s.players.set s.selectedPlayer p,
      engineNodeOwn := updMap s.engineNodeOwn idx (some (s.selectedPlayer, .settlement)) }

/-- Main-phase upgrade branch of place_piece: the first settlement in the
acting player node-state array becomes a city, recorded in
Game.node_ownership; no affordability check and no payment. -/
def mainUpgrade (s : GState) : GState :=
  let p := getPlayer s s.selectedPlayer
  match p.nodeStates.findIdx? (fun st => st = .settlement) with
  | some i =>
      let p := updateStats { p with nodeStates := p.nodeStates.set i .city }
      { s with
        players := s.players.set s.selectedPlayer p,
        nodeOwn := updMap s.nodeOwn i (some (s.selectedPlayer, .city)) }
  | none => s

/-- place_piece after click snapping: nIdx is the nearest node index and
eIdx the nearest edge index of the click point. -/
def place_piece (s : GState) (nIdx eIdx : ℕ) : GState :=
  if s.phase = .setup then
    if s.setupStep % 2 = 0 then setupSettle s nIdx else setupRoad s eIdx
  else
    match s.buildMode with
    | some .road => mainRoad s eIdx
    | some .settle => mainSettle s nIdx
    | some .upgrade => mainUpgrade s
    | _ => s

/-- The effective next_turn of the Game class (the second definition in
the class body shadows the earlier one that called check_win): increment
current_turn and, in the game phase, reactivate the roll button.  No win
check runs. -/
def next_turn (s : GState) : GState :=
  let s := { s with currentTurn := s.currentTurn + 1 }
  if s.phase = .game then { s with rollActive := true } else s

/-- clear_board of the Game class: reset every player state array to empty
at the graph sizes and recompute stats, clear Game.node_ownership and
Game.edge_ownership (engine.node_ownership is not touched, and resource
counts are not touched), return to the setup phase at step 0 and clear the
dice result. -/
def clear_board (s : GState) : GState :=
  { s with
    players := s.players.map (fun p =>
      updateStats
        { p with
          nodeStates := List.replicate posNodes.length .empty,
          edgeStates := List.replicate posEdges.length .empty }),
    nodeOwn := fun _ => none,
    edgeOwn := fun _ => none,
    phase := .setup,
    setupStep := 0,
    diceResult := none }

/-- Roll-button handler of the run loop: when the button is active outside
setup, next_turn runs and a fresh dice result is stored (the call to
engine.roll_dice only mutates engine fields no claim reads); when inactive
outside setup, the button is re-armed; during setup the click is ignored. -/
def rollClick (s : GState) (d1 d2 : ℕ) : GState :=
  if s.rollActive ∧ s.phase ≠ .setup then
    { next_turn s with diceResult := some (d1 + d2) }
  else if ¬ s.rollActive ∧ s.phase ≠ .setup then { s with rollActive := true }
  else s

/-- Stats-panel click handler of the run loop: select an existing player. -/
def selectPlayer (s : GState) (i : ℕ) : GState :=
  if i < s.players.length then { s with selectedPlayer := i } else s

/-- num_players clamp of Game.__init__: max(2, min(num_players, 5)). -/
def clampPlayers (n : ℤ) : ℤ := max 2 (min n 5)

/-- Fresh player of setup_players: zero resources, empty state arrays at
the graph sizes, zero derived stats. -/
def initPlayer : PlayerSt :=
  ⟨List.replicate posNodes.length .empty, List.replicate posEdges.length .empty,
   fun _ => 0, 0, 0⟩

/-- Game.__init__ for a requested player count and a generated tile list:
clamped player count, empty ownership dicts, setup phase at step 0,
active roll button. -/
def initState (n : ℤ) (ts : List Tile) : GState :=
  { tiles := ts,
    nodeOwn := fun _ => none,
    edgeOwn := fun _ => none,
    engineNodeOwn := fun _ => none,
    players := List.replicate (clampPlayers n).toNat initPlayer,
    selectedPlayer := 0,
    currentTurn := 0,
    numPlayers := (clampPlayers n).toNat,
    phase := .setup,
    setupStep := 0,
    buildMode := none,
    rollActive := true,
    diceResult := none,
    gameOver := false }

/-- User events of the run loop that mutate modelled state: a board click
resolved to its nearest node and edge indices, a build-mode button, the
clear button, a roll-button click with the two dice draws, a stats-panel
click, and the reshuffle button (which replaces the tiles; the recomputed
graph is identical, and dev-card buying and playing touch no modelled
field). -/
inductive Act
  | place (nIdx eIdx : ℕ)
  | mode (m : Option BMode)
  | clear
  | roll (d1 d2 : ℕ)
  | select (i : ℕ)
  | reshuffle (ts : List Tile)

/-- One dispatched user event. -/
def stepA (s : GState) : Act → GState
  | .place nIdx eIdx => place_piece s nIdx eIdx
  | .mode m => { s with buildMode := m }
  | .clear => clear_board s
  | .roll d1 d2 => rollClick s d1 d2
  | .select i => selectPlayer s i
  | .reshuffle ts => { s with tiles := ts }

/-- States reachable from a fresh game. -/
inductive Reachable (n : ℤ) (ts : List Tile) : GState → Prop
  | init : Reachable n ts (initState n ts)
  | step {s : GState} (a : Act) : Reachable n ts s → Reachable n ts (stepA s a)

/-- Success guard of a setup-phase placement attempt. -/
def setupPlaceSucceeds (s : GState) (nIdx eIdx : ℕ) : Bool :=
  if s.setupStep % 2 = 0 then settleChecksPass s nIdx
  else is_valid_road s (setup_player_index s.numPlayers s.setupStep) eIdx

/-- A step of a run grants player p the second-settlement bonus exactly
when it is a successful setup settlement placement by p whose grant
condition fires. -/
def grantsBonus (p : ℕ) (s : GState) : Act → Bool
  | .place nIdx _ =>
      s.phase = .setup && s.setupStep % 2 = 0 &&
        setup_player_index s.numPlayers s.setupStep = p &&
        settleChecksPass s nIdx && bonusFires s nIdx
  | _ => false

/-- Number of bonus grants to player p along a run. -/
def bonusCount (p : ℕ) : GState → List Act → ℕ
  | _, [] => 0
  | s, a :: as => (if grantsBonus p s a then 1 else 0) + bonusCount p (stepA s a) as

/-- A run that never presses the clear button. -/
def ClearFree (acts : List Act) : Prop := ∀ a ∈ acts, a ≠ Act.clear

/-- Payout the claim attributes to one tile: 1 unit of the tile resource
per adjacent node owned by the player (2 for a city), as a sum. -/
def tilePayout (own : ℕ → Option (ℕ × StructKind)) (t : Tile) (p : ℕ)
    (res : Resource) : ℤ :=
  ((get_adjacent_nodes t).map (fun n =>
    match own n with
    | some (pid, k) =>
        if pid = p ∧ t.resource = res then (if k = .city then 2 else 1) else 0
    | none => 0)).sum

/-- Total payout the claim attributes to a roll r: summed over the tiles
whose number token equals r. -/
def payout (tiles : List Tile) (own : ℕ → Option (ℕ × StructKind)) (r : ℕ)
    (p : ℕ) (res : Resource) : ℤ :=
  (tiles.map (fun t => if t.number = some r then tilePayout own t p res else 0)).sum

/-- Number of adjacent non-desert tiles of a given resource, the amount
the second-settlement grant adds. -/
def startGrantCount (ts : List Tile) (res : Resource) : ℕ :=
  (ts.filter (fun t => !decide (t.resource = Resource.DESERT) && decide (t.resource = res))).length

/-- A sample generated board (the unshuffled pools), for witnesses. -/
def defaultTiles : List Tile := (generate_board resPool numPool).getD []

/-- Empty node-ownership snapshot. -/
def emptyOwn : ℕ → Option (ℕ × StructKind) := fun _ => none

/-- All-zero resource table. -/
def zeroRes : ℕ → Resource → ℤ := fun _ _ => 0

/-! Concrete demonstration states for the claims the code falsifies. -/

/-- A fresh three-player game (the tile list is irrelevant to placement
checks). -/
def c2Start : GState := initState 3 []

/-- After player 0 places the first settlement at node 0, advanced to the
next settlement turn (setup_step 2, player 1). -/
def c2Mid : GState := { stepA c2Start (.place 0 0) with setupStep := 2 }

/-- Player 1 attempts a settlement at node 3, which is adjacent to node 0. -/
def c2End : GState := stepA c2Mid (.place 3 0)

/-- Main-phase state in road build mode with a zero-resource selected
player. -/
def c7Start : GState :=
  { initState 3 [] with phase := .game, setupStep := 12, buildMode := some .road }

/-- Result of the road placement attempt at edge 0. -/
def c7End : GState := stepA c7Start (.place 0 0)

/-- A player whose derived victory points are 10 (five cities). -/
def c8Player : PlayerSt :=
  updateStats
    { initPlayer with
      nodeStates := List.replicate 5 NodeSt.city ++ List.replicate 49 NodeSt.empty }

/-- Main-phase state in which player 0 has already reached 10 victory
points. -/
def c8Start : GState :=
  { initState 3 [] with
    phase := .game, setupStep := 12, players := [c8Player, initPlayer, initPlayer] }

/-- The turn advance (roll-button click) from that state. -/
def c8End : GState := stepA c8Start (.roll 3 4)

/-- State before reset: player 0 holds one wood card and has a settlement
recorded in engine.node_ownership at node 5. -/
def c9Start : GState :=
  { initState 3 [] with
    phase := .game, setupStep := 12,
    players := [{ initPlayer with
                    nodeStates := initPlayer.nodeStates.set 5 .settlement,
                    resources := fun r => if r = Resource.WOOD then 1 else 0 },
                initPlayer, initPlayer],
    engineNodeOwn := updMap (fun _ => none) 5 (some (0, .settlement)) }

end CatanSrc

namespace CatanSrc

/-! Helper lemmas. -/

set_option maxHeartbeats 4000000 in
theorem catanGraph_eval : catanGraph = catanGraphL := by decide

theorem computeGraph_eval : compute_graph tilePositions = catanGraphL := catanGraph_eval

theorem posNodes_eval : posNodes = sortLe posKeyLe catanGraph.nodes := by
  rw [catanGraph_eval]; decide

theorem posEdges_eval : posEdges = sortLe posKeyLe catanGraph.edges := by
  rw [catanGraph_eval]; decide

theorem nodeAdj_eval : nodeAdj = catanGraph.adj := by rw [catanGraph_eval]; rfl

theorem genTiles_positions :
    ∀ (ps : List Pt) (rs : List Resource) (ns : List ℕ) (ts : List Tile),
      genTiles ps rs ns = some ts → ts.map Tile.position = ps := by
  intro ps
  induction ps with
  | nil =>
    intro rs ns ts h
    simp only [genTiles] at h
    cases h
    rfl
  | cons p ps ih =>
    intro rs ns ts h
    match rs with
    | [] => simp [genTiles] at h
    | r :: rs =>
      by_cases hd : r = Resource.DESERT
      · simp only [genTiles, if_pos hd, Option.map_eq_some'] at h
        obtain ⟨ts', h1, h2⟩ := h
        subst h2
        simp [List.map_cons, ih rs ns ts' h1]
      · simp only [genTiles, if_neg hd] at h
        match hpop : popLast ns with
        | none => rw [hpop] at h; exact absurd h (by simp)
        | some (n, ns') =>
          rw [hpop] at h
          simp only [Option.map_eq_some'] at h
          obtain ⟨ts', h1, h2⟩ := h
          subst h2
          simp [List.map_cons, ih rs ns' ts' h1]

theorem popLast_of_ne_nil (l : List ℕ) (h : l ≠ []) :
    ∃ n, popLast l = some (n, l.dropLast) ∧ l.dropLast.length + 1 = l.length := by
  obtain ⟨n, hn⟩ := Option.isSome_iff_exists.mp (List.getLast?_isSome.mpr h)
  refine ⟨n, by simp [popLast, hn], ?_⟩
  have : l.length ≠ 0 := fun h0 => h (List.length_eq_zero.mp h0)
  simp [List.length_dropLast]
  omega

theorem genTiles_total :
    ∀ (ps : List Pt) (rs : List Resource) (ns : List ℕ),
      ps.length ≤ rs.length →
      (rs.take ps.length).countP (fun r => !decide (r = Resource.DESERT)) ≤ ns.length →
      ∃ ts, genTiles ps rs ns = some ts := by
  intro ps
  induction ps with
  | nil => intro rs ns _ _; exact ⟨[], rfl⟩
  | cons p ps ih =>
    intro rs ns hlen hcount
    match rs with
    | [] => simp at hlen
    | r :: rs =>
      simp only [List.length_cons, Nat.add_le_add_iff_right] at hlen
      simp only [List.length_cons, List.take_succ_cons, List.countP_cons] at hcount
      by_cases hd : r = Resource.DESERT
      · have hc : (rs.take ps.length).countP (fun r => !decide (r = Resource.DESERT)) ≤
            ns.length := by
          simpa [hd] using hcount
        obtain ⟨ts, hts⟩ := ih rs ns hlen hc
        refine ⟨⟨r, none, p⟩ :: ts, ?_⟩
        simp [genTiles, if_pos hd, hts]
      · have hone : (rs.take ps.length).countP (fun r => !decide (r = Resource.DESERT)) + 1 ≤
            ns.length := by
          simpa [hd] using hcount
        have hne : ns ≠ [] := by
          intro h0
          rw [h0] at hone
          simp at hone
        obtain ⟨n, hpop, hlen'⟩ := popLast_of_ne_nil ns hne
        obtain ⟨ts, hts⟩ := ih rs ns.dropLast hlen (by omega)
        refine ⟨⟨r, some n, p⟩ :: ts, ?_⟩
        simp [genTiles, if_neg hd, hpop, hts]

/-! Claim theorems. -/

/-- C1: for every generated board (any permutation of the resource and
number pools placed in the 3-4-5-4-3 row layout), generation succeeds,
the tile positions are the fixed layout, and the graph built by
compute_graph has exactly 54 distinct nodes and exactly 72 distinct
edges. -/
theorem C1_graph_counts (rs : List Resource) (ns : List ℕ)
    (hr : rs.Perm resPool) (hn : ns.Perm numPool) :
    (generate_board rs ns).map (fun ts => ts.map Tile.position) = some tilePositions ∧
    (compute_graph tilePositions).nodes.length = 54 ∧
    (compute_graph tilePositions).nodes.Nodup ∧
    (compute_graph tilePositions).edges.length = 72 ∧
    (compute_graph tilePositions).edges.Nodup := by
  have hlen : rs.length = 19 := by rw [hr.length_eq]; rfl
  have hle : tilePositions.length ≤ rs.length := by rw [hlen]; decide
  have htake : rs.take tilePositions.length = rs := by
    have : tilePositions.length = 19 := by decide
    rw [this, ← hlen, List.take_length]
  have hcount :
      (rs.take tilePositions.length).countP (fun r => !decide (r = Resource.DESERT)) ≤
        ns.length := by
    rw [htake, hr.countP_eq, hn.length_eq]
    decide
  obtain ⟨ts, hts⟩ := genTiles_total tilePositions rs ns hle hcount
  have hmap := genTiles_positions tilePositions rs ns ts hts
  refine ⟨?_, ?_, ?_, ?_, ?_⟩
  · rw [generate_board, hts, Option.map_some', hmap]
  all_goals rw [computeGraph_eval]
  all_goals decide

/-- Witness for C1 at the unshuffled pools. -/
theorem C1_graph_counts_witness :
    (generate_board resPool numPool).map (fun ts => ts.map Tile.position) =
        some tilePositions ∧
    (compute_graph tilePositions).nodes.length = 54 ∧
    (compute_graph tilePositions).nodes.Nodup ∧
    (compute_graph tilePositions).edges.length = 72 ∧
    (compute_graph tilePositions).edges.Nodup :=
  C1_graph_counts resPool numPool (List.Perm.refl _) (List.Perm.refl _)

/-- C2 is false of the code: after player 0 placed a settlement at node 0
(recorded in engine.node_ownership), the placement at the adjacent node 3
is accepted, because the validity checks read the distinct and still
empty Game.node_ownership dict.  This theorem evaluates the code at that
failing input: node 3 is adjacent to node 0, node 0 is owned, yet the
second placement succeeds and mutates state. -/
theorem C2_distance_rule_violated :
    (0, 3) ∈ nodeAdj ∧
    c2Mid.engineNodeOwn 0 = some (0, .settlement) ∧
    (getPlayer c2Mid 0).nodeStates.getD 0 .empty = .settlement ∧
    is_valid_settlement c2Mid 3 = true ∧
    c2End.engineNodeOwn 3 = some (1, .settlement) ∧
    (getPlayer c2End 1).nodeStates.getD 3 .empty = .settlement ∧
    c2End.setupStep = 3 := by
  decide

/-- C7 is false of the code for roads: a selected player with zero
resources cannot afford a road, yet the main-phase road build succeeds
and deducts nothing. -/
theorem C7_costs_not_enforced :
    can_afford (getPlayer c7Start 0) .road = false ∧
    (getPlayer c7End 0).edgeStates.getD 0 .empty = .road ∧
    c7End.edgeOwn 0 = some 0 ∧
    (∀ r ∈ allResources, (getPlayer c7End 0).resources r = 0) := by
  decide

/-- C8 is false of the code: with player 0 already at 10 derived victory
points, a turn advance completes without ending the game (the effective
next_turn never invokes check_win). -/
theorem C8_no_win_check :
    (getPlayer c8Start 0).victoryPoints = 10 ∧
    c8End.currentTurn = c8Start.currentTurn + 1 ∧
    c8End.gameOver = false ∧
    (getPlayer c8End 0).victoryPoints = 10 := by
  decide

/-- C9 as stated is false: clear_board leaves resource counts untouched
(player 0 still holds 1 wood after the reset) and does not clear
engine.node_ownership. -/
theorem C9_reset_counterexample :
    (getPlayer (clear_board c9Start) 0).resources Resource.WOOD = 1 ∧
    (1 : ℤ) ≠ 0 ∧
    (clear_board c9Start).engineNodeOwn 5 = some (0, .settlement) := by
  decide

/-- C9 amended: clear_board empties Game.node_ownership and
Game.edge_ownership, resets every player placement array and recomputes
victory points and longest road to zero, returns to the setup phase at
step 0, and the graph sizes stay 54 and 72; resource counts and
engine.node_ownership are left unchanged. -/
theorem C9_reset_amended (s : GState) :
    (∀ i, (clear_board s).nodeOwn i = none) ∧
    (∀ i, (clear_board s).edgeOwn i = none) ∧
    (clear_board s).phase = .setup ∧
    (clear_board s).setupStep = 0 ∧
    (∀ p ∈ (clear_board s).players,
        p.nodeStates = List.replicate posNodes.length .empty ∧
        p.edgeStates = List.replicate posEdges.length .empty ∧
        p.victoryPoints = 0 ∧ p.longestRoad = 0) ∧
    (∀ i, ((clear_board s).players.getD i default).resources =
        (s.players.getD i default).resources) ∧
    (clear_board s).engineNodeOwn = s.engineNodeOwn ∧
    posNodes.length = 54 ∧ posEdges.length = 72 := by
  refine ⟨fun i => rfl, fun i => rfl, rfl, rfl, ?_, ?_, rfl, by decide, by decide⟩
  · intro p hp
    simp only [clear_board, List.mem_map] at hp
    obtain ⟨q, _, hq⟩ := hp
    subst hq
    refine ⟨rfl, rfl, ?_, ?_⟩ <;>
      simp [updateStats, List.count_replicate]
  · intro i
    simp only [clear_board, List.getD_eq_getElem?_getD, List.getElem?_map]
    cases s.players[i]? <;> rfl

/-- C4: setup_player_index is integer division by two in the forward
round and the mirrored index in the reverse round, and for three players
the sequence over steps 0..11 is [0,0,1,1,2,2,2,2,1,1,0,0]. -/
theorem C4_setup_player_index :
    (∀ numPlayers setupStep : ℕ,
        setup_player_index numPlayers setupStep =
          if setupStep < numPlayers * 2 then setupStep / 2
          else numPlayers - 1 - ((setupStep - numPlayers * 2) / 2)) ∧
    (List.range 12).map (setup_player_index 3) = [0, 0, 1, 1, 2, 2, 2, 2, 1, 1, 0, 0] :=
  ⟨fun _ _ => rfl, by decide⟩

/-- C10: the constructor clamps the requested player count into 2..5 via
max(2, min(n, 5)); in-range requests are preserved. -/
theorem C10_player_clamp (n : ℤ) :
    (∀ ts, (initState n ts).numPlayers = (max 2 (min n 5)).toNat) ∧
    clampPlayers n = max 2 (min n 5) ∧
    2 ≤ clampPlayers n ∧ clampPlayers n ≤ 5 ∧
    (2 ≤ n → n ≤ 5 → clampPlayers n = n) := by
  refine ⟨fun _ => rfl, rfl, le_max_left _ _, ?_, ?_⟩
  · exact max_le (by norm_num) (min_le_right _ _)
  · intro h2 h5
    unfold clampPlayers
    rw [min_eq_left h5, max_eq_right h2]

/-- Witness for C10 at an in-range and an out-of-range request. -/
theorem C10_player_clamp_witness :
    clampPlayers 3 = 3 ∧ clampPlayers 9 = max 2 (min 9 5) :=
  ⟨(C10_player_clamp 3).2.2.2.2 (by norm_num) (by norm_num),
   (C10_player_clamp 9).2.1⟩

theorem addRes_apply (pl : ℕ → Resource → ℤ) (pid : ℕ) (res : Resource) (k : ℤ)
    (p : ℕ) (r : Resource) :
    addRes pl pid res k p r = pl p r + (if p = pid ∧ r = res then k else 0) := by
  by_cases h : p = pid ∧ r = res <;> simp [addRes, h]

theorem distFold_apply (own : ℕ → Option (ℕ × StructKind)) (tres : Resource)
    (L : List ℕ) (acc : ℕ → Resource → ℤ) (p : ℕ) (res : Resource) :
    (L.foldl
      (fun acc2 n =>
        match own n with
        | some (pid, k) => addRes acc2 pid tres (if k = .city then 2 else 1)
        | none => acc2)
      acc) p res
    = acc p res +
      ((L.map (fun n =>
        match own n with
        | some (pid, k) =>
            if pid = p ∧ tres = res then (if k = StructKind.city then (2 : ℤ) else 1) else 0
        | none => 0)).sum) := by
  induction L generalizing acc with
  | nil => simp
  | cons m L ih =>
    simp only [List.foldl_cons, List.map_cons, List.sum_cons]
    cases h : own m with
    | none => dsimp only; rw [ih]; ring
    | some z =>
      obtain ⟨pid, k⟩ := z
      dsimp only
      rw [ih, addRes_apply]
      have hsw :
          (if p = pid ∧ res = tres then (if k = StructKind.city then (2 : ℤ) else 1) else 0) =
          (if pid = p ∧ tres = res then (if k = StructKind.city then (2 : ℤ) else 1) else 0) := by
        by_cases hc : pid = p ∧ tres = res
        · rw [if_pos ⟨hc.1.symm, hc.2.symm⟩, if_pos hc]
        · rw [if_neg (fun hh => hc ⟨hh.1.symm, hh.2.symm⟩), if_neg hc]
      rw [hsw]
      ring

theorem distTile_apply (own : ℕ → Option (ℕ × StructKind)) (t : Tile)
    (pl : ℕ → Resource → ℤ) (p : ℕ) (res : Resource) :
    distTile own t pl p res = pl p res + tilePayout own t p res :=
  distFold_apply own t.resource (get_adjacent_nodes t) pl p res

theorem payout_cons (t : Tile) (ts : List Tile) (own : ℕ → Option (ℕ × StructKind))
    (r : ℕ) (p : ℕ) (res : Resource) :
    payout (t :: ts) own r p res =
      (if t.number = some r then tilePayout own t p res else 0) + payout ts own r p res := by
  simp [payout]

theorem distributeRes_apply (tiles : List Tile) (own : ℕ → Option (ℕ × StructKind))
    (pl : ℕ → Resource → ℤ) (r : ℕ) (p : ℕ) (res : Resource) :
    distributeRes tiles own pl r p res = pl p res + payout tiles own r p res := by
  induction tiles generalizing pl with
  | nil => simp [distributeRes, payout]
  | cons t ts ih =>
    have hcons : distributeRes (t :: ts) own pl r =
        distributeRes ts own (if t.number = some r then distTile own t pl else pl) r := rfl
    by_cases hn : t.number = some r
    · rw [hcons, if_pos hn, ih, distTile_apply, payout_cons, if_pos hn]
      ring
    · rw [hcons, if_neg hn, ih, payout_cons, if_neg hn]
      ring

theorem genTiles_desert :
    ∀ (ps : List Pt) (rs : List Resource) (ns : List ℕ) (ts : List Tile),
      genTiles ps rs ns = some ts →
      ∀ t ∈ ts, t.resource = Resource.DESERT → t.number = none := by
  intro ps
  induction ps with
  | nil =>
    intro rs ns ts h
    simp only [genTiles] at h
    cases h
    simp
  | cons p ps ih =>
    intro rs ns ts h
    match rs with
    | [] => simp [genTiles] at h
    | r :: rs =>
      by_cases hd : r = Resource.DESERT
      · simp only [genTiles, if_pos hd, Option.map_eq_some'] at h
        obtain ⟨ts', h1, h2⟩ := h
        subst h2
        intro t ht
        rcases List.mem_cons.mp ht with h' | h'
        · subst h'; intro _; rfl
        · exact ih rs ns ts' h1 t h'
      · simp only [genTiles, if_neg hd] at h
        match hpop : popLast ns with
        | none => rw [hpop] at h; exact absurd h (by simp)
        | some (n, ns') =>
          rw [hpop] at h
          simp only [Option.map_eq_some'] at h
          obtain ⟨ts', h1, h2⟩ := h
          subst h2
          intro t ht
          rcases List.mem_cons.mp ht with h' | h'
          · subst h'; intro hres; exact absurd hres hd
          · exact ih rs ns' ts' h1 t h'

/-- C3: on any generated board, for every ownership snapshot and any
non-seven roll, resource distribution adds to each player exactly the
claimed payout: 1 unit of the tile resource per owned adjacent node of
every tile whose number token equals the roll (2 for a city); desert
tiles carry no number token, hence never distribute; and distribution is
a pure function of the snapshot and the roll. -/
theorem C3_resource_distribution (rs : List Resource) (ns : List ℕ) (ts : List Tile)
    (own : ℕ → Option (ℕ × StructKind)) (pl : ℕ → Resource → ℤ) (r : ℕ)
    (hgen : generate_board rs ns = some ts) (_h7 : r ≠ 7) :
    (∀ p res, distributeRes ts own pl r p res = pl p res + payout ts own r p res) ∧
    (∀ t ∈ ts, t.resource = Resource.DESERT → t.number = none ∧ ¬ t.number = some r) ∧
    (∀ own2 pl2, own2 = own → pl2 = pl →
      distributeRes ts own2 pl2 r = distributeRes ts own pl r) := by
  refine ⟨fun p res => distributeRes_apply ts own pl r p res, ?_, ?_⟩
  · intro t ht hres
    have hnone := genTiles_desert tilePositions rs ns ts hgen t ht hres
    exact ⟨hnone, by rw [hnone]; simp⟩
  · intro own2 pl2 h1 h2
    rw [h1, h2]

/-- Witness for C3: the unshuffled board, the empty snapshot, the zero
resource table and roll 8. -/
theorem C3_resource_distribution_witness :
    distributeRes defaultTiles emptyOwn zeroRes 8 0 Resource.WOOD =
      zeroRes 0 Resource.WOOD + payout defaultTiles emptyOwn 8 0 Resource.WOOD :=
  (C3_resource_distribution resPool numPool defaultTiles emptyOwn zeroRes 8
    (by decide) (by decide)).1 0 Resource.WOOD

/-! Transition-system lemmas for the setup-phase claims. -/

theorem advanceSetup_num (s : GState) : (advanceSetup s).numPlayers = s.numPlayers := by
  unfold advanceSetup; dsimp only; split <;> rfl

theorem advanceSetup_players (s : GState) : (advanceSetup s).players = s.players := by
  unfold advanceSetup; dsimp only; split <;> rfl

theorem advanceSetup_step (s : GState) : (advanceSetup s).setupStep = s.setupStep + 1 := by
  unfold advanceSetup; dsimp only; split <;> rfl

theorem advanceSetup_phase (s : GState) :
    (advanceSetup s).phase =
      if s.numPlayers * 2 * 2 ≤ s.setupStep + 1 then Phase.game else s.phase := by
  unfold advanceSetup; dsimp only; split <;> [rfl; rfl]

theorem setupSettle_fields (s : GState) (idx : ℕ) :
    (setupSettle s idx).numPlayers = s.numPlayers ∧
    (setupSettle s idx).players.length = s.players.length ∧
    (if settleChecksPass s idx = true then
        (setupSettle s idx).setupStep = s.setupStep + 1 ∧
        (setupSettle s idx).phase =
          (if s.numPlayers * 2 * 2 ≤ s.setupStep + 1 then Phase.game else s.phase)
      else (setupSettle s idx).setupStep = s.setupStep ∧
        (setupSettle s idx).phase = s.phase) := by
  unfold setupSettle
  dsimp only
  by_cases hc : settleChecksPass s idx = true
  · rw [if_neg (not_not_intro hc), if_pos hc]
    refine ⟨?_, ?_, ?_, ?_⟩
    · rw [advanceSetup_num]
    · rw [advanceSetup_players]; exact List.length_set ..
    · rw [advanceSetup_step]
    · rw [advanceSetup_phase]
  · rw [if_pos hc, if_neg hc]
    exact ⟨rfl, rfl, rfl, rfl⟩

theorem setupRoad_fields (s : GState) (eIdx : ℕ) :
    (setupRoad s eIdx).numPlayers = s.numPlayers ∧
    (setupRoad s eIdx).players.length = s.players.length ∧
    (if is_valid_road s (setup_player_index s.numPlayers s.setupStep) eIdx = true then
        (setupRoad s eIdx).setupStep = s.setupStep + 1 ∧
        (setupRoad s eIdx).phase =
          (if s.numPlayers * 2 * 2 ≤ s.setupStep + 1 then Phase.game else s.phase)
      else (setupRoad s eIdx).setupStep = s.setupStep ∧
        (setupRoad s eIdx).phase = s.phase) := by
  unfold setupRoad
  dsimp only
  by_cases hc : is_valid_road s (setup_player_index s.numPlayers s.setupStep) eIdx = true
  · rw [if_neg (not_not_intro hc), if_pos hc]
    refine ⟨?_, ?_, ?_, ?_⟩
    · rw [advanceSetup_num]
    · rw [advanceSetup_players]; exact List.length_set ..
    · rw [advanceSetup_step]
    · rw [advanceSetup_phase]
  · rw [if_pos hc, if_neg hc]
    exact ⟨rfl, rfl, rfl, rfl⟩

theorem mainRoad_frame (s : GState) (eIdx : ℕ) :
    (mainRoad s eIdx).numPlayers = s.numPlayers ∧
    (mainRoad s eIdx).players.length = s.players.length ∧
    (mainRoad s eIdx).setupStep = s.setupStep ∧
    (mainRoad s eIdx).phase = s.phase := by
  unfold mainRoad
  dsimp only
  split
  · exact ⟨rfl, List.length_set .., rfl, rfl⟩
  · exact ⟨rfl, rfl, rfl, rfl⟩

theorem mainSettle_frame (s : GState) (idx : ℕ) :
    (mainSettle s idx).numPlayers = s.numPlayers ∧
    (mainSettle s idx).players.length = s.players.length ∧
    (mainSettle s idx).setupStep = s.setupStep ∧
    (mainSettle s idx).phase = s.phase := by
  unfold mainSettle
  dsimp only
  split
  · exact ⟨rfl, rfl, rfl, rfl⟩
  split
  · exact ⟨rfl, rfl, rfl, rfl⟩
  split
  · exact ⟨rfl, rfl, rfl, rfl⟩
  · exact ⟨rfl, List.length_set .., rfl, rfl⟩

theorem mainUpgrade_frame (s : GState) :
    (mainUpgrade s).numPlayers = s.numPlayers ∧
    (mainUpgrade s).players.length = s.players.length ∧
    (mainUpgrade s).setupStep = s.setupStep ∧
    (mainUpgrade s).phase = s.phase := by
  unfold mainUpgrade
  dsimp only
  split
  · exact ⟨rfl, List.length_set .., rfl, rfl⟩
  · exact ⟨rfl, rfl, rfl, rfl⟩

theorem place_piece_frame (s : GState) (nIdx eIdx : ℕ) :
    (place_piece s nIdx eIdx).numPlayers = s.numPlayers ∧
    (place_piece s nIdx eIdx).players.length = s.players.length := by
  unfold place_piece
  by_cases hph : s.phase = .setup
  · rw [if_pos hph]
    by_cases hpar : s.setupStep % 2 = 0
    · rw [if_pos hpar]
      exact ⟨(setupSettle_fields s nIdx).1, (setupSettle_fields s nIdx).2.1⟩
    · rw [if_neg hpar]
      exact ⟨(setupRoad_fields s eIdx).1, (setupRoad_fields s eIdx).2.1⟩
  · rw [if_neg hph]
    cases hbm : s.buildMode with
    | none => exact ⟨rfl, rfl⟩
    | some b =>
      cases b with
      | road => exact ⟨(mainRoad_frame s eIdx).1, (mainRoad_frame s eIdx).2.1⟩
      | settle => exact ⟨(mainSettle_frame s nIdx).1, (mainSettle_frame s nIdx).2.1⟩
      | upgrade => exact ⟨(mainUpgrade_frame s).1, (mainUpgrade_frame s).2.1⟩
      | buy => exact ⟨rfl, rfl⟩

theorem next_turn_frame (s : GState) :
    (next_turn s).numPlayers = s.numPlayers ∧
    (next_turn s).players.length = s.players.length ∧
    (next_turn s).setupStep = s.setupStep ∧
    (next_turn s).phase = s.phase := by
  unfold next_turn
  dsimp only
  split
  · exact ⟨rfl, rfl, rfl, rfl⟩
  · exact ⟨rfl, rfl, rfl, rfl⟩

theorem rollClick_frame (s : GState) (d1 d2 : ℕ) :
    (rollClick s d1 d2).numPlayers = s.numPlayers ∧
    (rollClick s d1 d2).players.length = s.players.length ∧
    (rollClick s d1 d2).setupStep = s.setupStep ∧
    (rollClick s d1 d2).phase = s.phase := by
  unfold rollClick
  split
  · exact ⟨(next_turn_frame s).1, (next_turn_frame s).2.1,
      (next_turn_frame s).2.2.1, (next_turn_frame s).2.2.2⟩
  split
  · exact ⟨rfl, rfl, rfl, rfl⟩
  · exact ⟨rfl, rfl, rfl, rfl⟩

theorem selectPlayer_frame (s : GState) (i : ℕ) :
    (selectPlayer s i).numPlayers = s.numPlayers ∧
    (selectPlayer s i).players.length = s.players.length ∧
    (selectPlayer s i).setupStep = s.setupStep ∧
    (selectPlayer s i).phase = s.phase := by
  unfold selectPlayer
  split
  · exact ⟨rfl, rfl, rfl, rfl⟩
  · exact ⟨rfl, rfl, rfl, rfl⟩

theorem stepA_frame (s : GState) (a : Act) :
    (stepA s a).numPlayers = s.numPlayers ∧
    (stepA s a).players.length = s.players.length := by
  cases a with
  | place nIdx eIdx => exact place_piece_frame s nIdx eIdx
  | mode m => exact ⟨rfl, rfl⟩
  | clear =>
    refine ⟨rfl, ?_⟩
    show (s.players.map _).length = s.players.length
    exact List.length_map ..
  | roll d1 d2 => exact ⟨(rollClick_frame s d1 d2).1, (rollClick_frame s d1 d2).2.1⟩
  | select i => exact ⟨(selectPlayer_frame s i).1, (selectPlayer_frame s i).2.1⟩
  | reshuffle ts2 => exact ⟨rfl, rfl⟩

theorem stepA_phase_inv (s : GState) (a : Act) (h1 : 1 ≤ s.numPlayers)
    (h : s.phase = .game ↔ s.numPlayers * 4 ≤ s.setupStep) :
    (stepA s a).phase = .game ↔ (stepA s a).numPlayers * 4 ≤ (stepA s a).setupStep := by
  cases a with
  | mode m => exact h
  | reshuffle ts2 => exact h
  | clear =>
    show Phase.setup = .game ↔ s.numPlayers * 4 ≤ 0
    constructor
    · intro hh; cases hh
    · intro hh; omega
  | roll d1 d2 =>
    have hf := rollClick_frame s d1 d2
    rw [show (stepA s (.roll d1 d2)) = rollClick s d1 d2 from rfl, hf.1, hf.2.2.1, hf.2.2.2]
    exact h
  | select i =>
    have hf := selectPlayer_frame s i
    rw [show (stepA s (.select i)) = selectPlayer s i from rfl, hf.1, hf.2.2.1, hf.2.2.2]
    exact h
  | place nIdx eIdx =>
    show (place_piece s nIdx eIdx).phase = .game ↔
      (place_piece s nIdx eIdx).numPlayers * 4 ≤ (place_piece s nIdx eIdx).setupStep
    by_cases hph : s.phase = .setup
    · have hlt : ¬ s.numPlayers * 4 ≤ s.setupStep := by
        intro hle
        have := h.mpr hle
        rw [hph] at this
        cases this
      unfold place_piece
      rw [if_pos hph]
      by_cases hpar : s.setupStep % 2 = 0
      · rw [if_pos hpar]
        obtain ⟨hnum, _, hcond⟩ := setupSettle_fields s nIdx
        by_cases hc : settleChecksPass s nIdx = true
        · rw [if_pos hc] at hcond
          rw [hnum, hcond.1, hcond.2]
          by_cases ht : s.numPlayers * 2 * 2 ≤ s.setupStep + 1
          · rw [if_pos ht]
            constructor
            · intro _; omega
            · intro _; rfl
          · rw [if_neg ht, hph]
            constructor
            · intro hh; cases hh
            · intro hh; omega
        · rw [if_neg hc] at hcond
          rw [hnum, hcond.1, hcond.2]
          exact h
      · rw [if_neg hpar]
        obtain ⟨hnum, _, hcond⟩ := setupRoad_fields s eIdx
        by_cases hc : is_valid_road s (setup_player_index s.numPlayers s.setupStep) eIdx = true
        · rw [if_pos hc] at hcond
          rw [hnum, hcond.1, hcond.2]
          by_cases ht : s.numPlayers * 2 * 2 ≤ s.setupStep + 1
          · rw [if_pos ht]
            constructor
            · intro _; omega
            · intro _; rfl
          · rw [if_neg ht, hph]
            constructor
            · intro hh; cases hh
            · intro hh; omega
        · rw [if_neg hc] at hcond
          rw [hnum, hcond.1, hcond.2]
          exact h
    · unfold place_piece
      rw [if_neg hph]
      cases hbm : s.buildMode with
      | none => exact h
      | some b =>
        cases b with
        | road =>
          have hf := mainRoad_frame s eIdx
          rw [hf.1, hf.2.2.1, hf.2.2.2]
          exact h
        | settle =>
          have hf := mainSettle_frame s nIdx
          rw [hf.1, hf.2.2.1, hf.2.2.2]
          exact h
        | upgrade =>
          have hf := mainUpgrade_frame s
          rw [hf.1, hf.2.2.1, hf.2.2.2]
          exact h
        | buy => exact h

theorem reachable_inv (n : ℤ) (ts : List Tile) (s : GState) (h : Reachable n ts s) :
    1 ≤ s.numPlayers ∧ s.players.length = s.numPlayers ∧
      (s.phase = .game ↔ s.numPlayers * 4 ≤ s.setupStep) := by
  induction h with
  | init =>
    have h2 : (2 : ℤ) ≤ clampPlayers n := le_max_left _ _
    refine ⟨?_, ?_, ?_⟩
    · show 1 ≤ (clampPlayers n).toNat
      omega
    · show (List.replicate (clampPlayers n).toNat initPlayer).length = (clampPlayers n).toNat
      exact List.length_replicate ..
    · show Phase.setup = .game ↔ (clampPlayers n).toNat * 4 ≤ 0
      constructor
      · intro hh; cases hh
      · intro hh
        exfalso
        omega
  | @step s' a _ ih =>
    have hf := stepA_frame s' a
    exact ⟨by rw [hf.1]; exact ih.1, by rw [hf.2, hf.1]; exact ih.2.1,
      stepA_phase_inv s' a ih.1 ih.2.2⟩

/-- C5: in every reachable state the phase is Main exactly when setup_step
has reached num_players * 4, and every successful setup placement
increments setup_step by exactly one, flipping the phase exactly when the
new value equals num_players * 4. -/
theorem C5_phase_transition (n : ℤ) (ts : List Tile) (s : GState)
    (h : Reachable n ts s) :
    (s.phase = .game ↔ s.numPlayers * 4 ≤ s.setupStep) ∧
    (∀ nIdx eIdx, s.phase = .setup → setupPlaceSucceeds s nIdx eIdx = true →
      (stepA s (.place nIdx eIdx)).setupStep = s.setupStep + 1 ∧
      ((stepA s (.place nIdx eIdx)).phase = .game ↔
        s.setupStep + 1 = s.numPlayers * 4)) := by
  have hinv := reachable_inv n ts s h
  refine ⟨hinv.2.2, ?_⟩
  intro nIdx eIdx hph hsucc
  have hlt : ¬ s.numPlayers * 4 ≤ s.setupStep := by
    intro hle
    have := hinv.2.2.mpr hle
    rw [hph] at this
    cases this
  have hred : stepA s (.place nIdx eIdx) = place_piece s nIdx eIdx := rfl
  rw [hred]
  unfold place_piece
  rw [if_pos hph]
  unfold setupPlaceSucceeds at hsucc
  by_cases hpar : s.setupStep % 2 = 0
  · rw [if_pos hpar] at hsucc ⊢
    obtain ⟨_, _, hcond⟩ := setupSettle_fields s nIdx
    rw [if_pos hsucc] at hcond
    refine ⟨hcond.1, ?_⟩
    rw [hcond.2]
    by_cases ht : s.numPlayers * 2 * 2 ≤ s.setupStep + 1
    · rw [if_pos ht]
      constructor
      · intro _; omega
      · intro _; rfl
    · rw [if_neg ht, hph]
      constructor
      · intro hh; cases hh
      · intro hh; omega
  · rw [if_neg hpar] at hsucc ⊢
    obtain ⟨_, _, hcond⟩ := setupRoad_fields s eIdx
    rw [if_pos hsucc] at hcond
    refine ⟨hcond.1, ?_⟩
    rw [hcond.2]
    by_cases ht : s.numPlayers * 2 * 2 ≤ s.setupStep + 1
    · rw [if_pos ht]
      constructor
      · intro _; omega
      · intro _; rfl
    · rw [if_neg ht, hph]
      constructor
      · intro hh; cases hh
      · intro hh; omega

/-- Witness for C5 at the initial three-player state. -/
theorem C5_phase_transition_witness :
    Reachable 3 [] (initState 3 []) ∧
    ((initState 3 []).phase = .game ↔
      (initState 3 []).numPlayers * 4 ≤ (initState 3 []).setupStep) :=
  ⟨Reachable.init, (C5_phase_transition 3 [] _ Reachable.init).1⟩

/-! Lemmas for the second-settlement bonus claim. -/

theorem place_piece_settle (s : GState) (nIdx eIdx : ℕ) (hph : s.phase = .setup)
    (hpar : s.setupStep % 2 = 0) :
    stepA s (.place nIdx eIdx) = setupSettle s nIdx := by
  show place_piece s nIdx eIdx = setupSettle s nIdx
  unfold place_piece
  rw [if_pos hph, if_pos hpar]

theorem getD_set_self (l : List α) (i : ℕ) (x d : α) (h : i < l.length) :
    (l.set i x).getD i d = x := by
  rw [List.getD_eq_getElem?_getD, List.getElem?_set_eq_of_lt x h]
  rfl

theorem grantFold_apply (ts : List Tile) (r : Resource) :
    ∀ f : Resource → ℤ,
      (ts.foldl
        (fun res t =>
          if t.resource = Resource.DESERT then res
          else fun r2 => if r2 = t.resource then res r2 + 1 else res r2)
        f) r
      = f r + (startGrantCount ts r : ℤ) := by
  induction ts with
  | nil => intro f; simp [startGrantCount]
  | cons t ts ih =>
    intro f
    simp only [List.foldl_cons]
    by_cases hd : t.resource = Resource.DESERT
    · rw [if_pos hd, ih f]
      have : startGrantCount (t :: ts) r = startGrantCount ts r := by
        simp [startGrantCount, List.filter_cons, hd]
      rw [this]
    · rw [if_neg hd, ih]
      by_cases hr : r = t.resource
      · rw [if_pos hr]
        have : startGrantCount (t :: ts) r = startGrantCount ts r + 1 := by
          have hrd : ¬ r = Resource.DESERT := fun hh => hd (by rw [← hr]; exact hh)
          simp [startGrantCount, List.filter_cons, hd, hr.symm, hrd]
        rw [this]
        push_cast
        ring
      · rw [if_neg hr]
        have : startGrantCount (t :: ts) r = startGrantCount ts r := by
          have : ¬ t.resource = r := fun hh => hr hh.symm
          simp [startGrantCount, List.filter_cons, hd, this]
        rw [this]

theorem grantStart_resources (q : PlayerSt) (ts : List Tile) (r : Resource) :
    (grantStart q ts).resources r = q.resources r + (startGrantCount ts r : ℤ) :=
  grantFold_apply ts r q.resources

theorem grantStart_nodeStates (q : PlayerSt) (ts : List Tile) :
    (grantStart q ts).nodeStates = q.nodeStates := rfl

theorem setupSettle_grant (s : GState) (idx : ℕ)
    (hc : settleChecksPass s idx = true) (hb : bonusFires s idx = true)
    (hlen : setup_player_index s.numPlayers s.setupStep < s.players.length) :
    getPlayer (setupSettle s idx) (setup_player_index s.numPlayers s.setupStep) =
      grantStart
        { getPlayer s (setup_player_index s.numPlayers s.setupStep) with
          nodeStates := (getPlayer s (setup_player_index s.numPlayers
            s.setupStep)).nodeStates.set idx .settlement }
        (get_tiles_adjacent_to_node s.tiles idx) := by
  unfold setupSettle
  dsimp only
  rw [if_neg (not_not_intro hc), if_pos hb]
  unfold getPlayer
  rw [advanceSetup_players]
  dsimp only
  exact getD_set_self _ _ _ _ hlen

theorem bonusFires_parts (s : GState) (idx : ℕ) (hb : bonusFires s idx = true) :
    s.numPlayers * 2 ≤ s.setupStep ∧
    ((getPlayer s (setup_player_index s.numPlayers
      s.setupStep)).nodeStates.set idx .settlement).count .settlement = 2 := by
  unfold bonusFires at hb
  simp only [Bool.and_eq_true, decide_eq_true_eq] at hb
  exact hb

theorem grant_conditions (p : ℕ) (s : GState) (nIdx eIdx : ℕ)
    (hg : grantsBonus p s (.place nIdx eIdx) = true) (h1 : 1 ≤ s.numPlayers)
    (hiff : s.phase = .game ↔ s.numPlayers * 4 ≤ s.setupStep) :
    s.phase = .setup ∧ s.setupStep % 2 = 0 ∧
    setup_player_index s.numPlayers s.setupStep = p ∧
    settleChecksPass s nIdx = true ∧ bonusFires s nIdx = true ∧
    s.setupStep = 2 * s.numPlayers + 2 * (s.numPlayers - 1 - p) ∧
    p < s.numPlayers := by
  unfold grantsBonus at hg
  simp only [Bool.and_eq_true, decide_eq_true_eq] at hg
  obtain ⟨⟨⟨⟨hph, hpar⟩, hpi⟩, hchecks⟩, hbonus⟩ := hg
  have h2n : s.numPlayers * 2 ≤ s.setupStep := (bonusFires_parts s nIdx hbonus).1
  have hlt : s.setupStep < s.numPlayers * 4 := by
    rcases Nat.lt_or_ge s.setupStep (s.numPlayers * 4) with hh | hh
    · exact hh
    · have := hiff.mpr hh
      rw [hph] at this
      cases this
  have hidx : s.numPlayers - 1 - ((s.setupStep - s.numPlayers * 2) / 2) = p := by
    unfold setup_player_index at hpi
    dsimp only at hpi
    rw [if_neg (by omega)] at hpi
    exact hpi
  refine ⟨hph, hpar, hpi, hchecks, hbonus, ?_, ?_⟩ <;> omega

theorem stepA_step_mono (s : GState) (a : Act) (hne : a ≠ .clear) :
    s.setupStep ≤ (stepA s a).setupStep := by
  cases a with
  | clear => exact absurd rfl hne
  | mode m => exact le_rfl
  | reshuffle ts2 => exact le_rfl
  | roll d1 d2 => exact le_of_eq (rollClick_frame s d1 d2).2.2.1.symm
  | select i => exact le_of_eq (selectPlayer_frame s i).2.2.1.symm
  | place nIdx eIdx =>
    show s.setupStep ≤ (place_piece s nIdx eIdx).setupStep
    unfold place_piece
    by_cases hph : s.phase = .setup
    · rw [if_pos hph]
      by_cases hpar : s.setupStep % 2 = 0
      · rw [if_pos hpar]
        obtain ⟨_, _, hcond⟩ := setupSettle_fields s nIdx
        by_cases hc : settleChecksPass s nIdx = true
        · rw [if_pos hc] at hcond; omega
        · rw [if_neg hc] at hcond; omega
      · rw [if_neg hpar]
        obtain ⟨_, _, hcond⟩ := setupRoad_fields s eIdx
        by_cases hc : is_valid_road s (setup_player_index s.numPlayers s.setupStep) eIdx = true
        · rw [if_pos hc] at hcond; omega
        · rw [if_neg hc] at hcond; omega
    · rw [if_neg hph]
      cases hbm : s.buildMode with
      | none => exact le_rfl
      | some b =>
        cases b with
        | road => exact le_of_eq (mainRoad_frame s eIdx).2.2.1.symm
        | settle => exact le_of_eq (mainSettle_frame s nIdx).2.2.1.symm
        | upgrade => exact le_of_eq (mainUpgrade_frame s).2.2.1.symm
        | buy => exact le_rfl

theorem grant_step_succ (s : GState) (nIdx eIdx : ℕ)
    (hph : s.phase = .setup) (hpar : s.setupStep % 2 = 0)
    (hc : settleChecksPass s nIdx = true) :
    (stepA s (.place nIdx eIdx)).setupStep = s.setupStep + 1 := by
  rw [place_piece_settle s nIdx eIdx hph hpar]
  obtain ⟨_, _, hcond⟩ := setupSettle_fields s nIdx
  rw [if_pos hc] at hcond
  exact hcond.1

theorem bonusCount_le (p : ℕ) (n : ℤ) (ts0 : List Tile) :
    ∀ (acts : List Act) (s : GState), Reachable n ts0 s → ClearFree acts →
      bonusCount p s acts ≤ 1 ∧
      (2 * s.numPlayers + 2 * (s.numPlayers - 1 - p) < s.setupStep →
        bonusCount p s acts = 0) := by
  intro acts
  induction acts with
  | nil => intro s _ _; exact ⟨Nat.zero_le 1, fun _ => rfl⟩
  | cons a acts ih =>
    intro s hs hcf
    have hcf' : ClearFree acts := fun x hx => hcf x (List.mem_cons_of_mem _ hx)
    have hane : a ≠ .clear := hcf a (List.mem_cons_self _ _)
    have hs' : Reachable n ts0 (stepA s a) := Reachable.step a hs
    have ihs := ih (stepA s a) hs' hcf'
    have hinv := reachable_inv n ts0 s hs
    have hbc : bonusCount p s (a :: acts) =
        (if grantsBonus p s a then 1 else 0) + bonusCount p (stepA s a) acts := rfl
    by_cases hg : grantsBonus p s a = true
    · cases a with
      | mode m => simp [grantsBonus] at hg
      | clear => exact absurd rfl hane
      | roll d1 d2 => simp [grantsBonus] at hg
      | select i => simp [grantsBonus] at hg
      | reshuffle ts2 => simp [grantsBonus] at hg
      | place nIdx eIdx =>
        obtain ⟨hph, hpar, _, hchecks, _, hval, _⟩ :=
          grant_conditions p s nIdx eIdx hg hinv.1 hinv.2.2
        have hstep1 := grant_step_succ s nIdx eIdx hph hpar hchecks
        have hnum := (stepA_frame s (.place nIdx eIdx)).1
        have h0 : bonusCount p (stepA s (.place nIdx eIdx)) acts = 0 := by
          apply ihs.2
          rw [hnum, hstep1]
          omega
        rw [hbc, if_pos hg, h0]
        exact ⟨le_rfl, fun hlt => by omega⟩
    · rw [hbc, if_neg hg, Nat.zero_add]
      refine ⟨ihs.1, fun hlt => ?_⟩
      apply ihs.2
      have hmono := stepA_step_mono s a hane
      rw [(stepA_frame s a).1]
      omega

/-- C6: on any reachable state, the second-settlement bonus is granted to
player p only by a successful setup settlement placement whose result
leaves p with exactly 2 settlements and only from setup_step at least
num_players * 2 (the reverse round); when it fires, p gains exactly one
unit per adjacent non-desert tile of that tile's resource; a placement
that leaves p with exactly 1 settlement (the first) never grants it; and
along any run from a fresh game that never presses clear, the bonus is
granted to p at most once. -/
theorem C6_second_settlement_bonus (n : ℤ) (ts0 : List Tile) (p : ℕ) :
    (∀ s, Reachable n ts0 s → ∀ nIdx eIdx,
      (grantsBonus p s (.place nIdx eIdx) = true →
        s.numPlayers * 2 ≤ s.setupStep ∧
        (getPlayer (stepA s (.place nIdx eIdx)) p).nodeStates.count .settlement = 2 ∧
        (∀ res, (getPlayer (stepA s (.place nIdx eIdx)) p).resources res =
          (getPlayer s p).resources res +
            (startGrantCount (get_tiles_adjacent_to_node s.tiles nIdx) res : ℤ))) ∧
      ((getPlayer (stepA s (.place nIdx eIdx)) p).nodeStates.count .settlement = 1 →
        grantsBonus p s (.place nIdx eIdx) = false)) ∧
    (∀ acts, ClearFree acts → bonusCount p (initState n ts0) acts ≤ 1) := by
  have main : ∀ s, Reachable n ts0 s → ∀ nIdx eIdx,
      grantsBonus p s (.place nIdx eIdx) = true →
        s.numPlayers * 2 ≤ s.setupStep ∧
        (getPlayer (stepA s (.place nIdx eIdx)) p).nodeStates.count .settlement = 2 ∧
        (∀ res, (getPlayer (stepA s (.place nIdx eIdx)) p).resources res =
          (getPlayer s p).resources res +
            (startGrantCount (get_tiles_adjacent_to_node s.tiles nIdx) res : ℤ)) := by
    intro s hs nIdx eIdx hg
    have hinv := reachable_inv n ts0 s hs
    obtain ⟨hph, hpar, hpi, hchecks, hbonus, _, hplt⟩ :=
      grant_conditions p s nIdx eIdx hg hinv.1 hinv.2.2
    have hlen : setup_player_index s.numPlayers s.setupStep < s.players.length := by
      rw [hpi, hinv.2.1]
      exact hplt
    have hpost := setupSettle_grant s nIdx hchecks hbonus hlen
    rw [place_piece_settle s nIdx eIdx hph hpar, ← hpi]
    refine ⟨(bonusFires_parts s nIdx hbonus).1, ?_, ?_⟩
    · rw [hpost, grantStart_nodeStates]
      exact (bonusFires_parts s nIdx hbonus).2
    · intro res
      rw [hpost, grantStart_resources]
  refine ⟨fun s hs nIdx eIdx => ⟨main s hs nIdx eIdx, ?_⟩, ?_⟩
  · intro hcount
    by_contra hne
    have hg : grantsBonus p s (.place nIdx eIdx) = true := by
      cases hgb : grantsBonus p s (.place nIdx eIdx)
      · exact absurd hgb hne
      · rfl
    have := (main s hs nIdx eIdx hg).2.1
    omega
  · intro acts hcf
    exact (bonusCount_le p n ts0 acts (initState n ts0) Reachable.init hcf).1

/-- Witness for C6: a fresh three-player game grants no bonus on a first
settlement and the empty run grants at most one bonus. -/
theorem C6_second_settlement_bonus_witness :
    grantsBonus 0 (initState 3 []) (.place 0 0) = false ∧
    bonusCount 0 (initState 3 []) [] ≤ 1 :=
  ⟨((C6_second_settlement_bonus 3 [] 0).1 (initState 3 []) Reachable.init 0 0).2
      (by decide),
   (C6_second_settlement_bonus 3 [] 0).2 [] (by intro a ha; cases ha)⟩

end CatanSrc
